import Mathlib

/-!
# Verification of the braille-bridge frontend core

Shallow embedding of the braille-bridge repository's grading/feedback
workflow and its utility functions, with theorems settling the claims of
the specification against the TypeScript source.

Strings are modelled as `List Char`, i.e. sequences of Unicode scalar
values.  Where a JavaScript operation is sensitive to the UTF-16 encoding
(`String.prototype.length`), the embedding computes the UTF-16 code-unit
length explicitly (`jsStrLength`).
-/

namespace BrailleBridge

/-- JavaScript truthiness of a string value: the empty string is falsy,
every other string is truthy. -/
def jsTruthyStr (s : List Char) : Bool := !s.isEmpty

/-- JavaScript truthiness of an optional string value
(`undefined`/missing field is falsy, otherwise string truthiness). -/
def jsTruthyOpt : Option (List Char) → Bool
  | none => false
  | some s => jsTruthyStr s

/-- UTF-16 length of a string (`str.length` in JavaScript): characters
outside the Basic Multilingual Plane occupy two code units. -/
def jsStrLength (s : List Char) : Nat :=
  (s.map (fun c => if c.toNat ≥ 0x10000 then 2 else 1)).sum

/-- Index resolution for `String.prototype.slice`: a negative index counts
from the end of the string and is clamped at 0; a non-negative index is
clamped at the length. -/
def jsSliceIdx (len : Nat) (i : Int) : Nat :=
  if i < 0 then (max ((len : Int) + i) 0).toNat else min i.toNat len

/-- Semantics of `String.prototype.slice(start, end?)` on a sequence of characters:
resolve both indices, then return the characters strictly between them
(empty when the resolved start is not below the resolved end).  `none`
as the second argument models an omitted end argument. -/
def jsSlice (s : List Char) (start : Int) (stop : Option Int) : List Char :=
  let len := s.length
  let a := jsSliceIdx len start
  let b := match stop with
    | none => len
    | some e => jsSliceIdx len e
  (s.take b).drop a

/-- Model of `str.replace(/\n/g, ' ')`: replace every newline by a space. -/
def replaceNewlines (s : List Char) : List Char :=
  s.map (fun c => if c = '\n' then ' ' else c)

/-!
## Braille transliteration utility (`frontend/src/utils/braille.ts`)
-/

/-- The `brailleMap` lookup table from `utils/braille.ts`: the 26
lowercase Latin letters map to their Unicode Braille glyphs and the space
character maps to itself; every other key is absent (`undefined`). -/
def brailleMap : Char → Option Char
  | 'a' => some '⠁'
  | 'b' => some '⠃'
  | 'c' => some '⠉'
  | 'd' => some '⠙'
  | 'e' => some '⠑'
  | 'f' => some '⠋'
  | 'g' => some '⠛'
  | 'h' => some '⠓'
  | 'i' => some '⠊'
  | 'j' => some '⠚'
  | 'k' => some '⠅'
  | 'l' => some '⠇'
  | 'm' => some '⠍'
  | 'n' => some '⠝'
  | 'o' => some '⠕'
  | 'p' => some '⠏'
  | 'q' => some '⠟'
  | 'r' => some '⠗'
  | 's' => some '⠎'
  | 't' => some '⠞'
  | 'u' => some '⠥'
  | 'v' => some '⠧'
  | 'w' => some '⠺'
  | 'x' => some '⠭'
  | 'y' => some '⠽'
  | 'z' => some '⠵'
  | ' ' => some ' '
  | _ => none

/-- ECMAScript `String.prototype.toLowerCase` on one character, as a
sequence of characters (Unicode Default Case Conversion).  The embedding
is exact on every character whose lowercasing can influence a
`brailleMap` lookup: the ASCII letters A–Z, U+0130 İ (the one character
whose unconditional lowercase mapping is multi-character: it becomes
i followed by U+0307 combining dot above), and U+212A KELVIN SIGN (which
lowercases to the ASCII letter k).  Every other character either is
fixed by lowercasing or lowercases to a character that, like the
character itself, is outside `brailleMap`'s key set (so the rendered
glyph is the placeholder either way); those characters are modelled as
fixed.  In particular a character beyond the BMP stays beyond the BMP
under lowercasing, so its rendering (two lone surrogates, two
placeholder glyphs) is unaffected by modelling it as fixed. -/
def jsToLowerChar (c : Char) : List Char :=
  if 65 ≤ c.toNat ∧ c.toNat ≤ 90 then [Char.ofNat (c.toNat + 32)]
  else if c = Char.ofNat 0x130 then ['i', Char.ofNat 0x307]
  else if c = Char.ofNat 0x212A then ['k']
  else [c]

/-- Decomposition of one character into its UTF-16 code units, as
`split('')` produces them on a JavaScript string: a BMP character is a
single code unit, a character beyond the BMP is its surrogate pair
(high surrogate, then low surrogate). -/
def utf16Units (c : Char) : List Nat :=
  if c.toNat < 0x10000 then [c.toNat]
  else [0xD800 + (c.toNat - 0x10000) / 0x400,
    0xDC00 + (c.toNat - 0x10000) % 0x400]

/-- Lookup of one UTF-16 code unit in `brailleMap`: a one-unit string
holding a lone surrogate is the key of no entry (`undefined`); any other
unit is the character it encodes, looked up directly. -/
def brailleMapUnit (u : Nat) : Option Char :=
  if 0xD800 ≤ u ∧ u ≤ 0xDFFF then none else brailleMap (Char.ofNat u)

/-- Function `toBraille` from `utils/braille.ts`:
`text.toLowerCase().split('').map((ch) => brailleMap[ch] ?? '⍰').join('')`.
Lower-case the whole string, split the result into its UTF-16 code units
(`split('')` splits a character beyond the BMP into its two surrogates),
and map every unit through `brailleMap`, substituting the placeholder
glyph for absent entries. -/
def toBraille (text : List Char) : List Char :=
  ((text.flatMap jsToLowerChar).flatMap utf16Units).map
    (fun u => (brailleMapUnit u).getD '⍰')

/-!
## Braille-pattern detection and renderer (`components/BrailleRenderer.tsx`)
-/

/-- The per-character test of `isBraillePattern`: the character's code
point lies in the Braille Patterns block `0x2800`–`0x28FF`.  (The source
reads `ch.charCodeAt(0)` on a code-point iteration; for a character
outside the BMP that yields a surrogate in `0xD800`–`0xDBFF`, which is
outside the Braille range exactly as the code point itself is.) -/
def isBrailleChar (c : Char) : Bool :=
  0x2800 ≤ c.toNat && c.toNat ≤ 0x28FF

/-- The number of characters of the string counted by `isBraillePattern`'s
loop, i.e. those in the Braille Patterns block. -/
def brailleCount (s : List Char) : Nat :=
  (s.filter isBrailleChar).length

/-- Function `isBraillePattern` from `BrailleRenderer.tsx`: the empty string is
not Braille; otherwise the string is Braille when the Braille-character
count divided by the string length exceeds one half.  The division is
modelled exactly over ℚ: both operands are integers far below 2^53, and
0.5 is a representable float, so the float comparison of the source
agrees with the rational one. -/
def isBraillePattern (s : List Char) : Bool :=
  if s.isEmpty then false
  else decide ((brailleCount s : ℚ) / (jsStrLength s : ℚ) > 1 / 2)

/-- The renderer's choice of text to display:
`alreadyBraille || isBraillePattern(text) ? text : toBraille(text)`. -/
def displayText (alreadyBraille : Bool) (text : List Char) : List Char :=
  if alreadyBraille || isBraillePattern text then text else toBraille text

/-- The three segments the renderer produces when both error bounds are
defined: `displayText.slice(0, errorStart)`,
`displayText.slice(errorStart, errorEnd)`, `displayText.slice(errorEnd)`. -/
def rendererSegments (alreadyBraille : Bool) (text : List Char)
    (errorStart errorEnd : Int) : List Char × List Char × List Char :=
  let d := displayText alreadyBraille text
  (jsSlice d 0 (some errorStart), jsSlice d errorStart (some errorEnd),
    jsSlice d errorEnd none)

/-!
## Data model (`pages/SubmissionDetail.tsx` type helpers)
-/

/-- Kind of an answer: `'image' | 'audio'`. -/
inductive AnswerType
  | image
  | audio
deriving DecidableEq, Repr

/-- The `Answer` interface of `SubmissionDetail.tsx`.  Optional fields
(`english_text?: string`, `braille_text?: string | null`) are modelled as
`Option`; `none` covers both an absent field and `null`, which behave
identically in every guard of the component (all are falsy). -/
structure Answer where
  diagram_idx : Nat
  answer_type : AnswerType
  file_path : List Char
  urdu_text : List Char
  english_text : Option (List Char)
  braille_text : Option (List Char)
  errors : List (List Char)
deriving DecidableEq, Repr

/-- A diagram of an assignment: image path and prompt. -/
structure DiagramMeta where
  image_path : List Char
  prompt : List Char
deriving DecidableEq, Repr

/-- The assignment header embedded in a submission. -/
structure AssignmentMeta where
  id : Int
  title : List Char
  diagrams : List DiagramMeta
deriving DecidableEq, Repr

/-- The `SubmissionData` interface of `SubmissionDetail.tsx`. -/
structure SubmissionData where
  id : Int
  student : List Char
  answers : List Answer
  assignment : AssignmentMeta
deriving DecidableEq, Repr

/-- The `AutogradeResult` interface of `submissionService.ts`:
correctness flag, explanation, optional error bounds. -/
structure AutogradeResult where
  correct : Bool
  explanation : List Char
  error_start : Option Int
  error_end : Option Int
deriving DecidableEq, Repr

/-!
## Translation-fallback effect (`SubmissionDetail.tsx` lines 83–100)
-/

/-- The translation request issued by one run of the fallback effect on
the first answer: `if (answer.english_text || !answer.urdu_text) return;`
then `translateUrduToEnglish(answer.urdu_text)`.  The result is the text
sent for translation, `none` when no call is made. -/
def translationRequest (answer : Answer) : Option (List Char) :=
  if jsTruthyOpt answer.english_text || !jsTruthyStr answer.urdu_text then none
  else some answer.urdu_text

/-- The success continuation of the fallback effect: a pure state update
(`setData(prev => ...)`) that writes the translated text into the first
answer of the in-memory submission and changes nothing else; no fetch is
performed. -/
def mergeEnglish (d : SubmissionData) (eng : List Char) : SubmissionData :=
  { d with
    answers :=
      match d.answers with
      | [] => []
      | a :: rest => { a with english_text := some eng } :: rest }

/-- The failure continuation of the fallback effect: the catch handler
only logs (`console.error('Translation failed', e)`); it performs no
state update, so the submission state is returned unchanged. -/
def translationOnFailure (d : SubmissionData) : SubmissionData := d

/-!
## Feedback export (`SubmissionDetail.tsx` `downloadFeedback`)
-/

/-- Template interpolation of a possibly-undefined string field
(`${answer.english_text}`): an absent value renders as the literal text
`undefined`. -/
def jsInterpOpt : Option (List Char) → List Char
  | none => "undefined".toList
  | some s => s

/-- Guard `answer.braille_text || 'N/A'`: a falsy value (absent, `null`, or the
empty string) is replaced by `N/A`. -/
def brailleOrNA (b : Option (List Char)) : List Char :=
  if jsTruthyOpt b then b.getD [] else "N/A".toList

/-- The plain-text feedback artifact's content, following the template of
`downloadFeedback` literally. -/
def feedbackContent (id student feedback : List Char) (answer : Answer) :
    List Char :=
  "Submission #".toList ++ id ++ " - ".toList ++ student ++
  "\n\nFeedback: ".toList ++ feedback ++
  "\n\nBraille Text:\n".toList ++ brailleOrNA answer.braille_text ++
  "\n\nUrdu Text:\n".toList ++ answer.urdu_text ++
  "\n\nEnglish Text:\n".toList ++ jsInterpOpt answer.english_text

/-- The observable actions of one `downloadFeedback` run, in order:
a feedback-analysis HTTP call, the plain-text artifact download, the SVG
artifact download.  The SVG artifact records the contents of its three
`tspan` elements in order (before-error, error, after-error); the purely
presentational attributes (x offset, squiggle scale) are not part of the
claims and are omitted. -/
inductive ExportEvent
  | analysisCall (feedback : List Char) (isCorrect : Bool) (student : List Char)
  | textArtifact (content : List Char)
  | svgArtifact (beforeError errorText afterError : List Char)
deriving DecidableEq, Repr

/-- The SVG-generation step of `downloadFeedback`: guarded by
`answer.braille_text && aiGrade && !aiGrade.correct &&
aiGrade.error_start !== undefined && aiGrade.error_end !== undefined`;
when taken, newlines of the Braille text are replaced by spaces and the
three `tspan` contents are `slice(0, error_start)`,
`slice(error_start, error_end)`, `slice(error_end)` of the result. -/
def svgStep (answer : Answer) : Option AutogradeResult → List ExportEvent
  | none => []
  | some g =>
    if jsTruthyOpt answer.braille_text && !g.correct then
      match g.error_start, g.error_end with
      | some es, some ee =>
        let brailleText := replaceNewlines (answer.braille_text.getD [])
        [.svgArtifact (jsSlice brailleText 0 (some es))
          (jsSlice brailleText es (some ee)) (jsSlice brailleText ee none)]
      | _, _ => []
    else []

/-- Function `downloadFeedback(feedback)` as the ordered list of its observable
actions: first, when a grade is present, one `analyzeFeedback(feedback,
aiGrade.correct, data.student)` call (its own failure is caught and only
logged); then the plain-text artifact; then, under the SVG guard, the SVG
artifact. -/
def downloadFeedback (id student : List Char) (answer : Answer)
    (aiGrade : Option AutogradeResult) (feedback : List Char) :
    List ExportEvent :=
  (match aiGrade with
    | some g => [.analysisCall feedback g.correct student]
    | none => []) ++
  [.textArtifact (feedbackContent id student feedback answer)] ++
  svgStep answer aiGrade

/-- The Accept button's handler: `downloadFeedback(aiGrade.explanation)`.
It is rendered only when a grade is present, so the grade is passed as a
required argument. -/
def acceptAction (id student : List Char) (answer : Answer)
    (g : AutogradeResult) : List ExportEvent :=
  downloadFeedback id student answer (some g) g.explanation

/-- The Reject flow's Download handler: `downloadFeedback(customFeedback)`
with the user-supplied text.  The feedback form is rendered only inside
the graded branch, so the grade is likewise present. -/
def rejectAction (id student : List Char) (answer : Answer)
    (g : AutogradeResult) (customFeedback : List Char) : List ExportEvent :=
  downloadFeedback id student answer (some g) customFeedback

/-- The number of feedback-analysis calls among a list of export events. -/
def countAnalysisCalls (events : List ExportEvent) : Nat :=
  (events.filter fun e =>
    match e with
    | .analysisCall _ _ _ => true
    | _ => false).length

/-- The number of SVG artifacts among a list of export events. -/
def countSvgArtifacts (events : List ExportEvent) : Nat :=
  (events.filter fun e =>
    match e with
    | .svgArtifact _ _ _ => true
    | _ => false).length

/-!
## File-URL construction (`SubmissionDetail.tsx` `getFileUrl`)
-/

/-- The hard-coded API base of `SubmissionDetail.tsx`. -/
def API_BASE_URL : List Char := "http://localhost:8000".toList

/-- Path cleaning `filePath.replace(/^backend\/, '')` (anchored, single occurrence):
when the path starts with `backend/` drop those 8 characters, otherwise
leave the path unchanged. -/
def stripBackendOnce (p : List Char) : List Char :=
  if p.take 8 = "backend/".toList then p.drop 8 else p

/-- Function `getFileUrl`: the static-asset base URL, a slash, and the path with a
leading `backend/` stripped. -/
def getFileUrl (p : List Char) : List Char :=
  API_BASE_URL ++ '/' :: stripBackendOnce p

/-!
## Remote service clients (`services/*.ts`)

Each client operation performs a single `fetch`, checks `res.ok`, throws
`new Error(await res.text())` on a non-success status, and otherwise
parses the body (`res.json()` / `res.blob()`).  The embedding models the
single HTTP exchange as an `HttpResponse` value carrying the status, the
body text, and the parsed payload (the parse result for a well-formed
success body); an operation is a function from that one response to
`Except`, which makes the fire-once, no-retry structure explicit: no
operation can consume more than the one response it is given.
-/

/-- One HTTP response as a client operation observes it: the numeric
status, the body as text (`res.text()`), and the typed payload the body
parses to (`res.json()` / `res.blob()`). -/
structure HttpResponse (α : Type) where
  status : Nat
  bodyText : List Char
  payload : α
deriving Repr

/-- Predicate `Response.ok` per the Fetch standard: status in the range 200–299. -/
def HttpResponse.ok {α : Type} (r : HttpResponse α) : Bool :=
  decide (200 ≤ r.status ∧ r.status ≤ 299)

/-- Whether an `Except` result is a failure. -/
def isFailure {ε α : Type} : Except ε α → Bool
  | .error _ => true
  | .ok _ => false

/-- Response body of `POST /api/assignments`: `{assignment_id}`. -/
structure CreateAssignmentResponse where
  assignment_id : Int
deriving DecidableEq, Repr

/-- Response body of `POST /api/assignments/{id}/submit`: `{submission_id}`. -/
structure SubmitAnswerResponse where
  submission_id : Int
deriving DecidableEq, Repr

/-- Response body of `POST /api/translate-urdu-english`: `{english_text}`. -/
structure TranslateResponse where
  english_text : List Char
deriving DecidableEq, Repr

/-- Response body of `POST /api/feedback/analyze`: `{trait, type}` (the JSON
field `type` is named `analysisType` here because `type` is reserved). -/
structure FeedbackAnalysis where
  trait : List Char
  analysisType : List Char
deriving DecidableEq, Repr

/-- A student profile as returned by `GET /api/students`. -/
structure StudentProfile where
  id : Int
  name : List Char
  strengths : List (List Char)
  challenges : List (List Char)
deriving DecidableEq, Repr

/-- A binary response body (`res.blob()`), as its byte sequence. -/
structure Blob where
  bytes : List Nat
deriving DecidableEq, Repr

/-- Operation `createAssignment` (assignmentService.ts): on success return
`data.assignment_id`, on non-success status throw the body text. -/
def createAssignment (r : HttpResponse CreateAssignmentResponse) :
    Except (List Char) Int :=
  if r.ok then .ok r.payload.assignment_id else .error r.bodyText

/-- Operation `fetchAssignments` (assignmentService.ts): return the parsed list. -/
def fetchAssignments (r : HttpResponse (List AssignmentMeta)) :
    Except (List Char) (List AssignmentMeta) :=
  if r.ok then .ok r.payload else .error r.bodyText

/-- Operation `fetchAssignment` (assignmentService.ts): return the parsed record. -/
def fetchAssignment (r : HttpResponse AssignmentMeta) :
    Except (List Char) AssignmentMeta :=
  if r.ok then .ok r.payload else .error r.bodyText

/-- Operation `submitAnswer` (submissionService.ts): on success return
`data.submission_id`. -/
def submitAnswer (r : HttpResponse SubmitAnswerResponse) :
    Except (List Char) Int :=
  if r.ok then .ok r.payload.submission_id else .error r.bodyText

/-- Operation `fetchSubmissions` (submissionService.ts). -/
def fetchSubmissions (r : HttpResponse (List SubmissionData)) :
    Except (List Char) (List SubmissionData) :=
  if r.ok then .ok r.payload else .error r.bodyText

/-- Operation `fetchSubmission` (submissionService.ts). -/
def fetchSubmission (r : HttpResponse SubmissionData) :
    Except (List Char) SubmissionData :=
  if r.ok then .ok r.payload else .error r.bodyText

/-- Operation `autogradeSubmission` (submissionService.ts). -/
def autogradeSubmission (r : HttpResponse AutogradeResult) :
    Except (List Char) AutogradeResult :=
  if r.ok then .ok r.payload else .error r.bodyText

/-- Operation `translateUrduToEnglish` (brailleService.ts): on success return
`data.english_text`. -/
def translateUrduToEnglish (r : HttpResponse TranslateResponse) :
    Except (List Char) (List Char) :=
  if r.ok then .ok r.payload.english_text else .error r.bodyText

/-- Operation `analyzeFeedback` (studentService.ts). -/
def analyzeFeedback (r : HttpResponse FeedbackAnalysis) :
    Except (List Char) FeedbackAnalysis :=
  if r.ok then .ok r.payload else .error r.bodyText

/-- Operation `fetchStudents` (studentService.ts). -/
def fetchStudents (r : HttpResponse (List StudentProfile)) :
    Except (List Char) (List StudentProfile) :=
  if r.ok then .ok r.payload else .error r.bodyText

/-- Operation `generateLessonPack` (lessonPackService.ts): on success return the
binary body. -/
def generateLessonPack (r : HttpResponse Blob) : Except (List Char) Blob :=
  if r.ok then .ok r.payload else .error r.bodyText

/-!
## Helper lemmas
-/

lemma jsSliceIdx_of_nonneg (len : Nat) (i : Int) (h : 0 ≤ i) :
    jsSliceIdx len i = min i.toNat len := by
  simp [jsSliceIdx, not_lt.mpr h]

lemma jsSlice_zero_eq_take (s : List Char) (a : Int) (h : 0 ≤ a) :
    jsSlice s 0 (some a) = s.take a.toNat := by
  simp only [jsSlice, jsSliceIdx_of_nonneg _ _ h, jsSliceIdx_of_nonneg _ 0 le_rfl]
  simp only [Int.toNat_zero, Nat.zero_min, List.drop_zero]
  rw [List.take_eq_take]
  simp [Nat.min_assoc]

lemma jsSlice_none_eq_drop (s : List Char) (b : Int) (h : 0 ≤ b) :
    jsSlice s b none = s.drop b.toNat := by
  simp only [jsSlice, jsSliceIdx_of_nonneg _ _ h, List.take_length]
  rcases le_total b.toNat s.length with hb | hb
  · rw [min_eq_left hb]
  · rw [min_eq_right hb, List.drop_eq_nil_of_le hb, List.drop_eq_nil_of_le le_rfl]

lemma jsSlice_mid_eq (s : List Char) (a b : Int) (h0 : 0 ≤ a) (h0b : 0 ≤ b) :
    jsSlice s a (some b) = (s.take (min b.toNat s.length)).drop a.toNat := by
  simp only [jsSlice, jsSliceIdx_of_nonneg _ _ h0, jsSliceIdx_of_nonneg _ _ h0b]
  rcases le_total a.toNat s.length with ha | ha
  · rw [min_eq_left ha]
  · rw [min_eq_right ha]
    have hlen : (s.take (min b.toNat s.length)).length ≤ s.length := by
      simp
    rw [List.drop_eq_nil_of_le (le_trans hlen ha),
      List.drop_eq_nil_of_le (le_trans hlen le_rfl)]

/-- Concatenating the three `slice` segments with non-negative bounds
`0 ≤ a ≤ b` recovers the whole string. -/
lemma jsSlice_concat (s : List Char) (a b : Int) (h0 : 0 ≤ a) (hab : a ≤ b) :
    jsSlice s 0 (some a) ++ jsSlice s a (some b) ++ jsSlice s b none = s := by
  have h0b : 0 ≤ b := le_trans h0 hab
  have hnat : a.toNat ≤ b.toNat := Int.toNat_le_toNat hab
  rw [jsSlice_zero_eq_take _ _ h0, jsSlice_none_eq_drop _ _ h0b,
    jsSlice_mid_eq _ _ _ h0 h0b]
  have htake : s.take a.toNat = (s.take (min b.toNat s.length)).take a.toNat := by
    rw [List.take_take, List.take_eq_take]
    omega
  rw [htake, List.take_append_drop]
  rcases le_total b.toNat s.length with hb | hb
  · rw [min_eq_left hb, List.take_append_drop]
  · rw [min_eq_right hb, List.take_length, List.drop_eq_nil_of_le hb,
      List.append_nil]

/-- When the upper bound also fits the string, the middle segment is
exactly the characters between the two offsets. -/
lemma jsSlice_mid_in_range (s : List Char) (a b : Int) (h0 : 0 ≤ a)
    (h0b : 0 ≤ b) (hb : b ≤ (s.length : Int)) :
    jsSlice s a (some b) = (s.take b.toNat).drop a.toNat := by
  rw [jsSlice_mid_eq _ _ _ h0 h0b, min_eq_left]
  exact Int.toNat_le.mpr hb

lemma jsStrLength_pos (s : List Char) (h : s ≠ []) : 0 < jsStrLength s := by
  cases s with
  | nil => exact absurd rfl h
  | cons c t =>
    simp only [jsStrLength, List.map_cons, List.sum_cons]
    have : 0 < (if c.toNat ≥ 0x10000 then 2 else 1) := by split <;> omega
    omega

lemma jsStrLength_of_bmp (s : List Char) (h : ∀ c ∈ s, c.toNat < 0x10000) :
    jsStrLength s = s.length := by
  induction s with
  | nil => rfl
  | cons c t ih =>
    have hc : ¬ c.toNat ≥ 0x10000 := by
      have := h c (List.mem_cons_self c t)
      omega
    simp only [jsStrLength, List.map_cons, List.sum_cons, if_neg hc] at *
    rw [ih fun d hd => h d (List.mem_cons_of_mem c hd)]
    simp [List.length_cons]
    omega

/-- The strict-majority test of `isBraillePattern`, with the rational
division eliminated. -/
lemma isBraillePattern_iff_twice (s : List Char) :
    isBraillePattern s = true ↔ 2 * brailleCount s > jsStrLength s := by
  cases hs : s.isEmpty with
  | true =>
    rw [List.isEmpty_iff] at hs
    subst hs
    simp [isBraillePattern, brailleCount, jsStrLength]
  | false =>
    have hne : s ≠ [] := by
      intro h
      rw [h] at hs
      simp at hs
    have hpos : 0 < jsStrLength s := jsStrLength_pos s hne
    have hposQ : (0 : ℚ) < (jsStrLength s : ℚ) := by exact_mod_cast hpos
    simp only [isBraillePattern, hs, Bool.false_eq_true, if_false,
      decide_eq_true_eq]
    rw [gt_iff_lt, div_lt_div_iff₀ (by norm_num) hposQ]
    constructor
    · intro h
      have : (jsStrLength s : ℚ) < 2 * (brailleCount s : ℚ) := by linarith
      exact_mod_cast this
    · intro h
      have : (jsStrLength s : ℚ) < 2 * (brailleCount s : ℚ) := by exact_mod_cast h
      linarith

lemma replaceNewlines_length (s : List Char) :
    (replaceNewlines s).length = s.length := by
  simp [replaceNewlines]

lemma countAnalysisCalls_svgStep (answer : Answer)
    (g : Option AutogradeResult) : countAnalysisCalls (svgStep answer g) = 0 := by
  cases g with
  | none => rfl
  | some g =>
    obtain ⟨corr, expl, es, ee⟩ := g
    simp only [svgStep]
    split
    · cases es <;> cases ee <;> rfl
    · rfl

lemma brailleMap_eq_none_of_gt (c : Char) (h : 122 < c.toNat) :
    brailleMap c = none := by
  unfold brailleMap
  split
  all_goals first
    | rfl
    | (exfalso; revert h; decide)

/-!
## Claim theorems
-/

/-- Claim C5: the detector `isBraillePattern` classifies a string as already-Braille exactly
when the number of its characters in the Braille Patterns block
(0x2800–0x28FF) divided by the string's length is strictly greater than
0.5 (for BMP strings the JavaScript length coincides with the character
count); a 10-character string with 6 Braille characters classifies as
Braille, one with exactly 5 does not, and the empty string classifies as
not-Braille. -/
theorem C5_isBraillePattern_threshold :
    (∀ s : List Char, s ≠ [] →
      (isBraillePattern s = true ↔
        (brailleCount s : ℚ) / (jsStrLength s : ℚ) > 1 / 2)) ∧
    (∀ s : List Char, (∀ c ∈ s, c.toNat < 0x10000) →
      jsStrLength s = s.length) ∧
    isBraillePattern (List.replicate 6 '⠁' ++ List.replicate 4 'x') = true ∧
    isBraillePattern (List.replicate 5 '⠁' ++ List.replicate 5 'x') = false ∧
    isBraillePattern [] = false := by
  refine ⟨?_, jsStrLength_of_bmp, ?_, ?_, rfl⟩
  · intro s hne
    have hs : s.isEmpty = false := by
      cases s with
      | nil => exact absurd rfl hne
      | cons c t => rfl
    simp [isBraillePattern, hs]
  · rw [isBraillePattern_iff_twice]
    decide
  · cases hb : isBraillePattern (List.replicate 5 '⠁' ++ List.replicate 5 'x')
    · rfl
    · exact absurd ((isBraillePattern_iff_twice _).mp hb) (by decide)

/-- Witness for C5: the threshold equivalence and the BMP length equation,
instantiated at concrete strings. -/
theorem C5_isBraillePattern_threshold_witness :
    (isBraillePattern ['⠁', 'x'] = true ↔
      (brailleCount ['⠁', 'x'] : ℚ) / (jsStrLength ['⠁', 'x'] : ℚ) > 1 / 2) ∧
    jsStrLength ['a', '⠁'] = (['a', '⠁'] : List Char).length :=
  ⟨C5_isBraillePattern_threshold.1 ['⠁', 'x'] (by decide),
    C5_isBraillePattern_threshold.2.1 ['a', '⠁'] (by decide)⟩

/-- Claim C6: every non-empty string consisting of Braille Patterns block
characters is classified as already-Braille by the detector, so the
renderer's display path short-circuits and displays the input itself
(for either value of the `alreadyBraille` flag) instead of
transliterating. -/
theorem C6_already_braille_short_circuit :
    ∀ (s : List Char) (alreadyBraille : Bool), s ≠ [] →
      (∀ c ∈ s, isBrailleChar c = true) →
      isBraillePattern s = true ∧ displayText alreadyBraille s = s := by
  intro s ab hne hall
  have hcount : brailleCount s = s.length := by
    unfold brailleCount
    rw [List.filter_eq_self.mpr hall]
  have hbmp : ∀ c ∈ s, c.toNat < 0x10000 := by
    intro c hc
    have hb := hall c hc
    simp only [isBrailleChar, Bool.and_eq_true, decide_eq_true_eq] at hb
    omega
  have hlen : jsStrLength s = s.length := jsStrLength_of_bmp s hbmp
  have hpos : 0 < s.length := List.length_pos.mpr hne
  have hpat : isBraillePattern s = true := by
    rw [isBraillePattern_iff_twice, hcount, hlen]
    omega
  refine ⟨hpat, ?_⟩
  unfold displayText
  rw [hpat]
  simp

/-- Witness for C6: the short-circuit at a concrete all-Braille string. -/
theorem C6_already_braille_short_circuit_witness :
    isBraillePattern ['⠁', '⠃'] = true ∧ displayText false ['⠁', '⠃'] = ['⠁', '⠃'] :=
  C6_already_braille_short_circuit ['⠁', '⠃'] false (by decide) (by decide)

/-- Claim C8: the helper `getFileUrl` builds the display/download URL as the static-asset
base, a slash, and the backend path with one leading `backend/` segment
stripped; a path without the prefix is appended unchanged, and the prefix
is removed only once and only at the start of the path. -/
theorem C8_getFileUrl_prefix_strip :
    ∀ p : List Char,
      getFileUrl ("backend/".toList ++ p) = API_BASE_URL ++ '/' :: p ∧
      (p.take 8 ≠ "backend/".toList →
        getFileUrl p = API_BASE_URL ++ '/' :: p) ∧
      getFileUrl ("backend/backend/".toList ++ p) =
        API_BASE_URL ++ '/' :: ("backend/".toList ++ p) ∧
      getFileUrl ("images/backend/".toList ++ p) =
        API_BASE_URL ++ '/' :: ("images/backend/".toList ++ p) := by
  intro p
  refine ⟨rfl, ?_, rfl, rfl⟩
  intro h
  unfold getFileUrl stripBackendOnce
  rw [if_neg h]

/-- Witness for C8: the no-prefix branch at a concrete path. -/
theorem C8_getFileUrl_prefix_strip_witness :
    getFileUrl "uploads/x.png".toList =
      API_BASE_URL ++ '/' :: "uploads/x.png".toList :=
  (C8_getFileUrl_prefix_strip "uploads/x.png".toList).2.1 (by decide)

/-- Claim C10: in the plain-text feedback artifact, an absent `english_text`
renders exactly as the literal string `undefined` (unguarded template
interpolation), whereas an absent `braille_text` is explicitly replaced
by `N/A`. -/
theorem C10_missing_field_rendering :
    ∀ (id student fb : List Char) (a : Answer),
      (a.english_text = none →
        feedbackContent id student fb a =
          feedbackContent id student fb
            { a with english_text := some "undefined".toList }) ∧
      (a.braille_text = none →
        feedbackContent id student fb a =
          feedbackContent id student fb
            { a with braille_text := some "N/A".toList }) := by
  intro id student fb a
  constructor
  · intro h
    simp [feedbackContent, jsInterpOpt, h]
  · intro h
    simp [feedbackContent, brailleOrNA, jsTruthyOpt, jsTruthyStr, h]

/-- Witness for C10: both renderings at a concrete answer missing both
fields. -/
theorem C10_missing_field_rendering_witness :
    (feedbackContent "1".toList "Ali".toList "ok".toList
        (Answer.mk 0 .image [] "سلام".toList none none []) =
      feedbackContent "1".toList "Ali".toList "ok".toList
        (Answer.mk 0 .image [] "سلام".toList (some "undefined".toList) none [])) ∧
    (feedbackContent "1".toList "Ali".toList "ok".toList
        (Answer.mk 0 .image [] "سلام".toList none none []) =
      feedbackContent "1".toList "Ali".toList "ok".toList
        (Answer.mk 0 .image [] "سلام".toList none (some "N/A".toList) [])) :=
  ⟨(C10_missing_field_rendering "1".toList "Ali".toList "ok".toList
      (Answer.mk 0 .image [] "سلام".toList none none [])).1 rfl,
    (C10_missing_field_rendering "1".toList "Ali".toList "ok".toList
      (Answer.mk 0 .image [] "سلام".toList none none [])).2 rfl⟩

lemma char_toNat_ofNat_of_valid (m : Nat) (hv : Nat.isValidChar m) :
    (Char.ofNat m).toNat = m := by
  simp only [Char.ofNat, dif_pos hv]
  rfl

lemma char_toNat_ofNat (m : Nat) (h : m < 0xd800) : (Char.ofNat m).toNat = m :=
  char_toNat_ofNat_of_valid m (Or.inl h)

lemma char_ofNat_toNat (c : Char) : Char.ofNat c.toNat = c :=
  Char.eq_of_val_eq (UInt32.ext (char_toNat_ofNat_of_valid c.toNat c.valid))

lemma char_toNat_lt (c : Char) : c.toNat < 0x110000 := by
  have he : c.toNat = c.val.toNat := rfl
  rcases c.valid with h | h <;> omega

lemma char_toNat_not_surrogate (c : Char) :
    ¬(0xD800 ≤ c.toNat ∧ c.toNat ≤ 0xDFFF) := by
  have he : c.toNat = c.val.toNat := rfl
  rcases c.valid with h | h <;> omega

lemma brailleMapUnit_of_char (c : Char) :
    brailleMapUnit c.toNat = brailleMap c := by
  unfold brailleMapUnit
  rw [if_neg (char_toNat_not_surrogate c), char_ofNat_toNat]

lemma jsToLowerChar_length (c : Char) (h : c ≠ Char.ofNat 0x130) :
    (jsToLowerChar c).length = 1 := by
  unfold jsToLowerChar
  by_cases h1 : 65 ≤ c.toNat ∧ c.toNat ≤ 90
  · rw [if_pos h1]
    rfl
  · rw [if_neg h1, if_neg h]
    by_cases h2 : c = Char.ofNat 0x212A
    · rw [if_pos h2]
      rfl
    · rw [if_neg h2]
      rfl

lemma lowerUnits_length (c : Char) (hb : c.toNat < 0x10000)
    (hi : c ≠ Char.ofNat 0x130) :
    ((jsToLowerChar c).flatMap utf16Units).length = 1 := by
  unfold jsToLowerChar
  by_cases h1 : 65 ≤ c.toNat ∧ c.toNat ≤ 90
  · rw [if_pos h1]
    have hval : (Char.ofNat (c.toNat + 32)).toNat = c.toNat + 32 :=
      char_toNat_ofNat (c.toNat + 32) (by omega)
    simp only [List.flatMap_cons, List.flatMap_nil, List.append_nil]
    unfold utf16Units
    rw [hval, if_pos (by omega : c.toNat + 32 < 0x10000)]
    rfl
  · rw [if_neg h1, if_neg hi]
    by_cases h2 : c = Char.ofNat 0x212A
    · rw [if_pos h2]
      rfl
    · rw [if_neg h2]
      simp only [List.flatMap_cons, List.flatMap_nil, List.append_nil]
      unfold utf16Units
      rw [if_pos hb]
      rfl

lemma toBraille_length (s : List Char)
    (h : ∀ c ∈ s, c.toNat < 0x10000 ∧ c ≠ Char.ofNat 0x130) :
    (toBraille s).length = s.length := by
  induction s with
  | nil => rfl
  | cons c t ih =>
    have hc := h c (List.mem_cons_self c t)
    simp only [toBraille, List.flatMap_cons, List.flatMap_append,
      List.map_append, List.length_append, List.length_cons,
      List.length_map]
    rw [lowerUnits_length c hc.1 hc.2]
    have := ih fun d hd => h d (List.mem_cons_of_mem c hd)
    simp only [toBraille, List.length_map] at this
    omega

lemma handle_spec {α β : Type} (f : α → β) (r : HttpResponse α) :
    isFailure
        (if r.ok then Except.ok (f r.payload)
          else Except.error (α := β) r.bodyText) = !r.ok ∧
    (r.ok = false →
      (if r.ok then Except.ok (f r.payload)
        else Except.error (α := β) r.bodyText) = Except.error r.bodyText) ∧
    (r.ok = true →
      (if r.ok then Except.ok (f r.payload)
        else Except.error (α := β) r.bodyText) = Except.ok (f r.payload)) := by
  cases h : r.ok <;> simp [h, isFailure]

/-- Claim C7: every remote service-client operation fails exactly when the HTTP
status is outside 200–299; on failure the surfaced message is the
response body text, and on a success status the operation returns the
parsed typed result.  Each operation is a function of the single response
of its one `fetch`, so no retry can occur. -/
theorem C7_remote_clients_fail_iff_non_success :
    (∀ (α : Type) (r : HttpResponse α),
      r.ok = true ↔ 200 ≤ r.status ∧ r.status ≤ 299) ∧
    (∀ r : HttpResponse CreateAssignmentResponse,
      isFailure (createAssignment r) = !r.ok ∧
      (r.ok = false → createAssignment r = .error r.bodyText) ∧
      (r.ok = true → createAssignment r = .ok r.payload.assignment_id)) ∧
    (∀ r : HttpResponse (List AssignmentMeta),
      isFailure (fetchAssignments r) = !r.ok ∧
      (r.ok = false → fetchAssignments r = .error r.bodyText) ∧
      (r.ok = true → fetchAssignments r = .ok r.payload)) ∧
    (∀ r : HttpResponse AssignmentMeta,
      isFailure (fetchAssignment r) = !r.ok ∧
      (r.ok = false → fetchAssignment r = .error r.bodyText) ∧
      (r.ok = true → fetchAssignment r = .ok r.payload)) ∧
    (∀ r : HttpResponse SubmitAnswerResponse,
      isFailure (submitAnswer r) = !r.ok ∧
      (r.ok = false → submitAnswer r = .error r.bodyText) ∧
      (r.ok = true → submitAnswer r = .ok r.payload.submission_id)) ∧
    (∀ r : HttpResponse (List SubmissionData),
      isFailure (fetchSubmissions r) = !r.ok ∧
      (r.ok = false → fetchSubmissions r = .error r.bodyText) ∧
      (r.ok = true → fetchSubmissions r = .ok r.payload)) ∧
    (∀ r : HttpResponse SubmissionData,
      isFailure (fetchSubmission r) = !r.ok ∧
      (r.ok = false → fetchSubmission r = .error r.bodyText) ∧
      (r.ok = true → fetchSubmission r = .ok r.payload)) ∧
    (∀ r : HttpResponse AutogradeResult,
      isFailure (autogradeSubmission r) = !r.ok ∧
      (r.ok = false → autogradeSubmission r = .error r.bodyText) ∧
      (r.ok = true → autogradeSubmission r = .ok r.payload)) ∧
    (∀ r : HttpResponse TranslateResponse,
      isFailure (translateUrduToEnglish r) = !r.ok ∧
      (r.ok = false → translateUrduToEnglish r = .error r.bodyText) ∧
      (r.ok = true → translateUrduToEnglish r = .ok r.payload.english_text)) ∧
    (∀ r : HttpResponse FeedbackAnalysis,
      isFailure (analyzeFeedback r) = !r.ok ∧
      (r.ok = false → analyzeFeedback r = .error r.bodyText) ∧
      (r.ok = true → analyzeFeedback r = .ok r.payload)) ∧
    (∀ r : HttpResponse (List StudentProfile),
      isFailure (fetchStudents r) = !r.ok ∧
      (r.ok = false → fetchStudents r = .error r.bodyText) ∧
      (r.ok = true → fetchStudents r = .ok r.payload)) ∧
    (∀ r : HttpResponse Blob,
      isFailure (generateLessonPack r) = !r.ok ∧
      (r.ok = false → generateLessonPack r = .error r.bodyText) ∧
      (r.ok = true → generateLessonPack r = .ok r.payload)) := by
  refine ⟨fun α r => by simp [HttpResponse.ok], ?_, ?_, ?_, ?_, ?_, ?_, ?_,
    ?_, ?_, ?_, ?_⟩
  · exact fun r =>
      handle_spec (fun p : CreateAssignmentResponse => p.assignment_id) r
  · exact fun r => handle_spec (fun p => p) r
  · exact fun r => handle_spec (fun p => p) r
  · exact fun r =>
      handle_spec (fun p : SubmitAnswerResponse => p.submission_id) r
  · exact fun r => handle_spec (fun p => p) r
  · exact fun r => handle_spec (fun p => p) r
  · exact fun r => handle_spec (fun p => p) r
  · exact fun r =>
      handle_spec (fun p : TranslateResponse => p.english_text) r
  · exact fun r => handle_spec (fun p => p) r
  · exact fun r => handle_spec (fun p => p) r
  · exact fun r => handle_spec (fun p => p) r

/-- Witness for C7: a 500 response surfaces its body text as the failure of
`createAssignment`, and a 200 response to the translation call returns
the parsed `english_text`. -/
theorem C7_remote_clients_fail_iff_non_success_witness :
    createAssignment
        (HttpResponse.mk 500 "Internal Server Error".toList
          (CreateAssignmentResponse.mk 7)) =
      Except.error "Internal Server Error".toList ∧
    translateUrduToEnglish
        (HttpResponse.mk 200 [] (TranslateResponse.mk "hello".toList)) =
      Except.ok "hello".toList :=
  ⟨(C7_remote_clients_fail_iff_non_success.2.1
      (HttpResponse.mk 500 "Internal Server Error".toList
        (CreateAssignmentResponse.mk 7))).2.1 (by decide),
    (C7_remote_clients_fail_iff_non_success.2.2.2.2.2.2.2.2.1
      (HttpResponse.mk 200 [] (TranslateResponse.mk "hello".toList))).2.2
      (by decide)⟩

lemma countAnalysisCalls_append (l1 l2 : List ExportEvent) :
    countAnalysisCalls (l1 ++ l2) =
      countAnalysisCalls l1 + countAnalysisCalls l2 := by
  simp [countAnalysisCalls, List.filter_append]

lemma countSvgArtifacts_append (l1 l2 : List ExportEvent) :
    countSvgArtifacts (l1 ++ l2) =
      countSvgArtifacts l1 + countSvgArtifacts l2 := by
  simp [countSvgArtifacts, List.filter_append]

lemma countSvgArtifacts_svgStep_some (answer : Answer) (g : AutogradeResult) :
    countSvgArtifacts (svgStep answer (some g)) =
      (if jsTruthyOpt answer.braille_text = true ∧ g.correct = false ∧
          g.error_start ≠ none ∧ g.error_end ≠ none then 1 else 0) := by
  obtain ⟨corr, expl, es, ee⟩ := g
  simp only [svgStep]
  cases hb : jsTruthyOpt answer.braille_text <;> cases corr <;>
    cases es <;> cases ee <;> simp [countSvgArtifacts]

/-- Counterexample for C1: at a concrete graded submission, the Reject action
(exporting user-supplied feedback) does issue a feedback-analysis call —
`downloadFeedback` analyzes whenever a grade is present, and the Reject
form is reachable only with a grade present — refuting the claim that
Reject never issues one. -/
theorem C1_reject_analyzes_counterexample :
    countAnalysisCalls
        (rejectAction "7".toList "Ali".toList
          (Answer.mk 0 .image [] "u".toList none none [])
          (AutogradeResult.mk false "wrong".toList none none)
          "Try again".toList) = 1 := by
  rfl

/-- Claim C1 (amended): for every graded submission, Accept issues exactly one
feedback-analysis call before generating the export artifacts, and the
Reject action likewise issues exactly one feedback-analysis call before
its artifacts (the export path analyzes whenever a grade is present); in
both cases the analyzed and exported feedback text is the AI explanation
for Accept and the user-supplied text, embedded verbatim in the exported
artifact, for Reject. -/
theorem C1_accept_reject_export (id student : List Char) (answer : Answer)
    (g : AutogradeResult) (custom : List Char) :
    acceptAction id student answer g =
      ExportEvent.analysisCall g.explanation g.correct student ::
        ExportEvent.textArtifact
          (feedbackContent id student g.explanation answer) ::
        svgStep answer (some g) ∧
    rejectAction id student answer g custom =
      ExportEvent.analysisCall custom g.correct student ::
        ExportEvent.textArtifact (feedbackContent id student custom answer) ::
        svgStep answer (some g) ∧
    countAnalysisCalls (acceptAction id student answer g) = 1 ∧
    countAnalysisCalls (rejectAction id student answer g custom) = 1 ∧
    feedbackContent id student custom answer =
      ("Submission #".toList ++ id ++ " - ".toList ++ student ++
        "\n\nFeedback: ".toList) ++ custom ++
      ("\n\nBraille Text:\n".toList ++ brailleOrNA answer.braille_text ++
        "\n\nUrdu Text:\n".toList ++ answer.urdu_text ++
        "\n\nEnglish Text:\n".toList ++ jsInterpOpt answer.english_text) := by
  have hcnt : ∀ fb : List Char,
      countAnalysisCalls (downloadFeedback id student answer (some g) fb) =
        1 := by
    intro fb
    unfold downloadFeedback
    rw [countAnalysisCalls_append, countAnalysisCalls_append,
      countAnalysisCalls_svgStep]
    rfl
  exact ⟨rfl, rfl, hcnt g.explanation, hcnt custom,
    by simp [feedbackContent, List.append_assoc]⟩

/-- Counterexample for C2: with Braille text `⠁\n⠃` and error span [0, 1) on
an incorrect grade, the SVG's three spans concatenate to `⠁ ⠃` — the
newline has been replaced by a space — which differs from the original
Braille text, refuting the claim that the concatenation equals the
original text. -/
theorem C2_newline_replacement_counterexample :
    svgStep (Answer.mk 0 .image [] [] none (some ['⠁', '\n', '⠃']) [])
        (some (AutogradeResult.mk false [] (some 0) (some 1))) =
      [ExportEvent.svgArtifact [] ['⠁'] [' ', '⠃']] ∧
    (([] : List Char) ++ ['⠁'] ++ [' ', '⠃']) ≠ ['⠁', '\n', '⠃'] := by
  exact ⟨rfl, by decide⟩

/-- Claim C2 (amended): with a grade present, the export step produces an SVG
artifact iff the Braille text is non-empty, the grade has correct =
false, and both error bounds are present; when produced, the SVG contains
exactly three text spans whose concatenation equals the original Braille
text with each newline replaced by a space (a length-preserving
substitution), and for bounds 0 ≤ error_start ≤ error_end ≤ length the
span boundaries fall exactly at character offsets error_start and
error_end of that text. -/
theorem C2_svg_artifact_spans (id student fb : List Char) (answer : Answer)
    (g : AutogradeResult) :
    (countSvgArtifacts (downloadFeedback id student answer (some g) fb) = 1 ↔
      jsTruthyOpt answer.braille_text = true ∧ g.correct = false ∧
        g.error_start ≠ none ∧ g.error_end ≠ none) ∧
    (∀ (b : List Char) (es ee : Int), answer.braille_text = some b →
      g.correct = false → g.error_start = some es → g.error_end = some ee →
      b ≠ [] →
      svgStep answer (some g) =
        [ExportEvent.svgArtifact (jsSlice (replaceNewlines b) 0 (some es))
          (jsSlice (replaceNewlines b) es (some ee))
          (jsSlice (replaceNewlines b) ee none)] ∧
      (replaceNewlines b).length = b.length ∧
      (0 ≤ es → es ≤ ee →
        jsSlice (replaceNewlines b) 0 (some es) ++
          jsSlice (replaceNewlines b) es (some ee) ++
          jsSlice (replaceNewlines b) ee none = replaceNewlines b) ∧
      (0 ≤ es → es ≤ ee → ee ≤ (b.length : Int) →
        jsSlice (replaceNewlines b) 0 (some es) =
          (replaceNewlines b).take es.toNat ∧
        jsSlice (replaceNewlines b) es (some ee) =
          ((replaceNewlines b).take ee.toNat).drop es.toNat ∧
        jsSlice (replaceNewlines b) ee none =
          (replaceNewlines b).drop ee.toNat)) := by
  constructor
  · have hd : countSvgArtifacts
        (downloadFeedback id student answer (some g) fb) =
        countSvgArtifacts (svgStep answer (some g)) := by
      unfold downloadFeedback
      rw [countSvgArtifacts_append, countSvgArtifacts_append]
      simp [countSvgArtifacts, List.filter]
    rw [hd, countSvgArtifacts_svgStep_some]
    split <;> rename_i hcond <;> simp [hcond]
  · intro b es ee hb hc hes hee hbne
    have htruthy : jsTruthyOpt (some b) = true := by
      simp only [jsTruthyOpt, jsTruthyStr, Bool.not_eq_true']
      cases b with
      | nil => exact absurd rfl hbne
      | cons x t => rfl
    have hsvg : svgStep answer (some g) =
        [ExportEvent.svgArtifact (jsSlice (replaceNewlines b) 0 (some es))
          (jsSlice (replaceNewlines b) es (some ee))
          (jsSlice (replaceNewlines b) ee none)] := by
      simp [svgStep, hb, hc, hes, hee, htruthy]
    refine ⟨hsvg, replaceNewlines_length b, ?_, ?_⟩
    · intro h0 h1
      exact jsSlice_concat _ _ _ h0 h1
    · intro h0 h1 h2
      have h0e : 0 ≤ ee := le_trans h0 h1
      have h2' : ee ≤ ((replaceNewlines b).length : Int) := by
        rw [replaceNewlines_length]
        exact h2
      exact ⟨jsSlice_zero_eq_take _ _ h0,
        jsSlice_mid_in_range _ _ _ h0 h0e h2',
        jsSlice_none_eq_drop _ _ h0e⟩

/-- Witness for C2: the amended span properties at a concrete incorrect grade
with bounds 0 and 1 on the Braille text `⠁⠃⠉`. -/
theorem C2_svg_artifact_spans_witness :
    svgStep (Answer.mk 0 .image [] [] none (some ['⠁', '⠃', '⠉']) [])
        (some (AutogradeResult.mk false [] (some 0) (some 1))) =
      [ExportEvent.svgArtifact
        (jsSlice (replaceNewlines ['⠁', '⠃', '⠉']) 0 (some 0))
        (jsSlice (replaceNewlines ['⠁', '⠃', '⠉']) 0 (some 1))
        (jsSlice (replaceNewlines ['⠁', '⠃', '⠉']) 1 none)] ∧
    (replaceNewlines ['⠁', '⠃', '⠉']).length =
      (['⠁', '⠃', '⠉'] : List Char).length ∧
    (jsSlice (replaceNewlines ['⠁', '⠃', '⠉']) 0 (some 0) ++
        jsSlice (replaceNewlines ['⠁', '⠃', '⠉']) 0 (some 1) ++
        jsSlice (replaceNewlines ['⠁', '⠃', '⠉']) 1 none =
      replaceNewlines ['⠁', '⠃', '⠉']) ∧
    jsSlice (replaceNewlines ['⠁', '⠃', '⠉']) 0 (some 1) =
      ((replaceNewlines ['⠁', '⠃', '⠉']).take (Int.toNat 1)).drop
        (Int.toNat 0) :=
  have h := (C2_svg_artifact_spans [] [] []
    (Answer.mk 0 .image [] [] none (some ['⠁', '⠃', '⠉']) [])
    (AutogradeResult.mk false [] (some 0) (some 1))).2
    ['⠁', '⠃', '⠉'] 0 1 rfl rfl rfl rfl (by decide)
  ⟨h.1, h.2.1, h.2.2.1 (by decide) (by decide),
    (h.2.2.2 (by decide) (by decide) (by decide)).2.1⟩

/-- Counterexample for C3: an answer whose `english_text` field is present
but empty still triggers a translation call — the effect's guard uses
JavaScript truthiness, and the empty string is falsy — refuting the
claim that no call is issued whenever `english_text` is already
present. -/
theorem C3_empty_english_counterexample :
    (Answer.mk 0 .image [] ['x'] (some []) none []).english_text.isSome =
      true ∧
    translationRequest (Answer.mk 0 .image [] ['x'] (some []) none []) =
      some ['x'] :=
  ⟨rfl, rfl⟩

/-- Claim C3 (amended): for a loaded submission whose first answer has a
non-empty `urdu_text` and a falsy `english_text` (absent or empty), one
run of the fallback effect issues exactly one translation call carrying
the Urdu text; on success the returned non-empty `english_text` is merged
into the in-memory submission (only the first answer's `english_text`
changes — no re-fetch) after which a re-run of the effect issues no
further call; on failure no state is updated, so `english_text` stays as
it was; and no call is issued when `english_text` is present and
non-empty or `urdu_text` is empty. -/
theorem C3_translation_fallback (d : SubmissionData) (a : Answer)
    (rest : List Answer) (eng : List Char) (ha : d.answers = a :: rest)
    (hu : a.urdu_text ≠ []) (he : jsTruthyOpt a.english_text = false) :
    translationRequest a = some a.urdu_text ∧
    (mergeEnglish d eng).answers =
      { a with english_text := some eng } :: rest ∧
    (mergeEnglish d eng).id = d.id ∧
    (mergeEnglish d eng).student = d.student ∧
    (mergeEnglish d eng).assignment = d.assignment ∧
    (eng ≠ [] →
      translationRequest { a with english_text := some eng } = none) ∧
    translationOnFailure d = d ∧
    (∀ b : Answer, jsTruthyOpt b.english_text = true ∨ b.urdu_text = [] →
      translationRequest b = none) := by
  have hut : jsTruthyStr a.urdu_text = true := by
    simp only [jsTruthyStr, Bool.not_eq_true']
    cases hcase : a.urdu_text with
    | nil => exact absurd hcase hu
    | cons x t => rfl
  refine ⟨?_, ?_, ?_, ?_, ?_, ?_, rfl, ?_⟩
  · unfold translationRequest
    rw [he, hut]
    rfl
  · unfold mergeEnglish
    rw [ha]
  · unfold mergeEnglish
    rw [ha]
  · unfold mergeEnglish
    rw [ha]
  · unfold mergeEnglish
    rw [ha]
  · intro hne
    unfold translationRequest
    have : jsTruthyOpt (some eng) = true := by
      simp only [jsTruthyOpt, jsTruthyStr, Bool.not_eq_true']
      cases hcase : eng with
      | nil => exact absurd hcase hne
      | cons x t => rfl
    simp [this]
  · intro b hb
    unfold translationRequest
    rcases hb with hb | hb
    · rw [hb]
      rfl
    · have : jsTruthyStr b.urdu_text = false := by
        rw [hb]
        rfl
      rw [this]
      simp

/-- Witness for C3: the amended fallback behaviour at a concrete submission
whose first answer has Urdu text and no English text. -/
theorem C3_translation_fallback_witness :
    translationRequest
        (Answer.mk 0 .image [] "سلام".toList none none []) =
      some "سلام".toList ∧
    (mergeEnglish
        (SubmissionData.mk 1 "Ali".toList
          [Answer.mk 0 .image [] "سلام".toList none none []]
          (AssignmentMeta.mk 1 [] [])) "hello".toList).answers =
      [Answer.mk 0 .image [] "سلام".toList (some "hello".toList) none []] ∧
    translationRequest
        (Answer.mk 0 .image [] "سلام".toList (some "hello".toList) none []) =
      none :=
  have h := C3_translation_fallback
    (SubmissionData.mk 1 "Ali".toList
      [Answer.mk 0 .image [] "سلام".toList none none []]
      (AssignmentMeta.mk 1 [] []))
    (Answer.mk 0 .image [] "سلام".toList none none []) [] "hello".toList
    rfl (by decide) rfl
  ⟨h.1, h.2.1, h.2.2.2.2.2.1 (by decide)⟩

/-- Counterexample for C4: the function `toBraille` is not
one-glyph-per-character and unmapped non-Latin characters do not all map
to a single placeholder: İ (U+0130) lowercases to two characters (i plus
combining dot above), so it yields two glyphs; the Kelvin sign (U+212A)
lowercases to `k`, so it yields k's Braille glyph rather than the
placeholder; and a character beyond the BMP such as U+1F600 is split by
`split('')` into two lone surrogates, so it yields two placeholder
glyphs. -/
theorem C4_unicode_lowercase_counterexample :
    toBraille [Char.ofNat 0x130] = ['⠊', '⍰'] ∧
    (toBraille [Char.ofNat 0x130]).length ≠
      ([Char.ofNat 0x130] : List Char).length ∧
    toBraille [Char.ofNat 0x212A] = ['⠅'] ∧
    toBraille [Char.ofNat 0x212A] ≠ ['⍰'] ∧
    toBraille [Char.ofNat 0x1F600] = ['⍰', '⍰'] ∧
    (toBraille [Char.ofNat 0x1F600]).length ≠
      ([Char.ofNat 0x1F600] : List Char).length := by
  refine ⟨by decide, by decide, by decide, by decide, by decide, by decide⟩

/-- Claim C4 (amended): the function `toBraille` is total and
deterministic; the empty string maps to the empty string; output length
equals input length exactly for strings of BMP characters other than İ
(U+0130): İ's Unicode lowercase is two characters, giving two glyphs,
and a character beyond the BMP is split by `split('')` into two lone
surrogates, giving two placeholder glyphs; ASCII letters are lower-cased
before lookup, making the function case-insensitive on them; space maps
to space; a BMP character whose single-character lowercase form is
unmapped renders as the placeholder glyph — in particular every
Braille-block character does — while a character whose lowercase form is
a mapped letter, such as the Kelvin sign (U+212A, lowercase k), renders
as that letter's glyph. -/
theorem C4_toBraille_per_char (s : List Char) (c d : Char)
    (hs : ∀ x ∈ s, x.toNat < 0x10000 ∧ x ≠ Char.ofNat 0x130) :
    toBraille [] = [] ∧
    (toBraille s).length = s.length ∧
    (65 ≤ c.toNat → c.toNat ≤ 90 →
      toBraille [c] = toBraille [Char.ofNat (c.toNat + 32)]) ∧
    toBraille [' '] = [' '] ∧
    (jsToLowerChar c = [d] → d.toNat < 0x10000 → brailleMap d = none →
      toBraille [c] = ['⍰']) ∧
    (isBrailleChar c = true → toBraille [c] = ['⍰']) ∧
    (0x10000 ≤ c.toNat → toBraille [c] = ['⍰', '⍰']) := by
  refine ⟨rfl, toBraille_length s hs, ?_, by decide, ?_, ?_, ?_⟩
  · intro h65 h90
    have hval : (Char.ofNat (c.toNat + 32)).toNat = c.toNat + 32 :=
      char_toNat_ofNat (c.toNat + 32) (by omega)
    have hupper : jsToLowerChar c = [Char.ofNat (c.toNat + 32)] := by
      unfold jsToLowerChar
      rw [if_pos ⟨h65, h90⟩]
    have hlower : jsToLowerChar (Char.ofNat (c.toNat + 32)) =
        [Char.ofNat (c.toNat + 32)] := by
      unfold jsToLowerChar
      rw [if_neg (by omega : ¬(65 ≤ (Char.ofNat (c.toNat + 32)).toNat ∧
          (Char.ofNat (c.toNat + 32)).toNat ≤ 90))]
      rw [if_neg, if_neg]
      · intro hk
        have := congrArg Char.toNat hk
        rw [hval, char_toNat_ofNat 0x212A (by norm_num)] at this
        omega
      · intro hi
        have := congrArg Char.toNat hi
        rw [hval, char_toNat_ofNat 0x130 (by norm_num)] at this
        omega
    simp [toBraille, hupper, hlower]
  · intro h1 hd h2
    simp [toBraille, h1, utf16Units, hd, brailleMapUnit_of_char, h2]
  · intro hbr
    simp only [isBrailleChar, Bool.and_eq_true, decide_eq_true_eq] at hbr
    have hlow : jsToLowerChar c = [c] := by
      unfold jsToLowerChar
      rw [if_neg (by omega : ¬(65 ≤ c.toNat ∧ c.toNat ≤ 90))]
      rw [if_neg, if_neg]
      · intro hk
        have := congrArg Char.toNat hk
        rw [char_toNat_ofNat 0x212A (by norm_num)] at this
        omega
      · intro hi
        have := congrArg Char.toNat hi
        rw [char_toNat_ofNat 0x130 (by norm_num)] at this
        omega
    have hmap : brailleMap c = none :=
      brailleMap_eq_none_of_gt c (by omega)
    have hbmp : c.toNat < 0x10000 := by omega
    simp [toBraille, hlow, utf16Units, hbmp, brailleMapUnit_of_char, hmap]
  · intro hast
    have hlt := char_toNat_lt c
    have hlow : jsToLowerChar c = [c] := by
      unfold jsToLowerChar
      rw [if_neg (by omega : ¬(65 ≤ c.toNat ∧ c.toNat ≤ 90))]
      rw [if_neg, if_neg]
      · intro hk
        have := congrArg Char.toNat hk
        rw [char_toNat_ofNat 0x212A (by norm_num)] at this
        omega
      · intro hi
        have := congrArg Char.toNat hi
        rw [char_toNat_ofNat 0x130 (by norm_num)] at this
        omega
    have hunits : utf16Units c =
        [0xD800 + (c.toNat - 0x10000) / 0x400,
          0xDC00 + (c.toNat - 0x10000) % 0x400] := by
      unfold utf16Units
      rw [if_neg (by omega)]
    have hhi : brailleMapUnit (0xD800 + (c.toNat - 0x10000) / 0x400) =
        none := by
      unfold brailleMapUnit
      rw [if_pos ⟨by omega, by omega⟩]
    have hlo : brailleMapUnit (0xDC00 + (c.toNat - 0x10000) % 0x400) =
        none := by
      unfold brailleMapUnit
      rw [if_pos ⟨by omega, by omega⟩]
    simp [toBraille, hlow, hunits, hhi, hlo]

/-- Witness for C4: the amended per-character properties instantiated:
length preservation on `Ab `, case-insensitivity at `A`, the placeholder
at `!` and at the Braille glyph `⠁`, and the double placeholder at the
non-BMP character U+1D11E. -/
theorem C4_toBraille_per_char_witness :
    (toBraille ['A', 'b', ' ']).length = (['A', 'b', ' '] : List Char).length ∧
    toBraille ['A'] = toBraille [Char.ofNat ('A'.toNat + 32)] ∧
    toBraille ['!'] = ['⍰'] ∧
    toBraille ['⠁'] = ['⍰'] ∧
    toBraille [Char.ofNat 0x1D11E] = ['⍰', '⍰'] :=
  have h := C4_toBraille_per_char ['A', 'b', ' '] 'A' 'a' (by decide)
  ⟨h.2.1, h.2.2.1 (by decide) (by decide),
    (C4_toBraille_per_char [] '!' '!' (by decide)).2.2.2.2.1 (by decide)
      (by decide) (by decide),
    (C4_toBraille_per_char [] '⠁' '⠁' (by decide)).2.2.2.2.2.1 (by decide),
    (C4_toBraille_per_char [] (Char.ofNat 0x1D11E) 'a'
      (by decide)).2.2.2.2.2.2 (by decide)⟩

/-- Counterexample for C9: with `errorStart = -3 ≤ errorEnd = 1`, JavaScript
`slice` resolves the negative start from the end of the string instead of
clamping, and the three rendered segments no longer concatenate to the
display text — refuting the claim for arbitrary defined bounds. -/
theorem C9_negative_bounds_counterexample :
    ((-3 : Int) ≤ 1) ∧
    (rendererSegments true "abcde".toList (-3) 1).1 ++
        (rendererSegments true "abcde".toList (-3) 1).2.1 ++
        (rendererSegments true "abcde".toList (-3) 1).2.2 ≠
      displayText true "abcde".toList := by
  exact ⟨by decide, by decide⟩

/-- Claim C9 (amended): the renderer's error-highlighting path is total for
arbitrary defined bounds (slicing never faults), and for all
non-negative bounds errorStart ≤ errorEnd — including values exceeding
the text length, which are clamped — the three rendered segments
concatenate to exactly the display text; when errorStart is at least the
text length the before-error segment is the whole display text and the
other two segments are empty. -/
theorem C9_renderer_segment_concat (text : List Char)
    (alreadyBraille : Bool) (es ee : Int) (h0 : 0 ≤ es) (h : es ≤ ee) :
    (rendererSegments alreadyBraille text es ee).1 ++
        (rendererSegments alreadyBraille text es ee).2.1 ++
        (rendererSegments alreadyBraille text es ee).2.2 =
      displayText alreadyBraille text ∧
    (((displayText alreadyBraille text).length : Int) ≤ es →
      rendererSegments alreadyBraille text es ee =
        (displayText alreadyBraille text, [], [])) := by
  constructor
  · exact jsSlice_concat _ _ _ h0 h
  · intro hlen
    have h0e : 0 ≤ ee := le_trans h0 h
    have hlen' : (displayText alreadyBraille text).length ≤ es.toNat := by
      omega
    have hlen'' : (displayText alreadyBraille text).length ≤ ee.toNat := by
      omega
    unfold rendererSegments
    refine Prod.ext ?_ (Prod.ext ?_ ?_)
    · show jsSlice (displayText alreadyBraille text) 0 (some es) = _
      rw [jsSlice_zero_eq_take _ _ h0]
      exact List.take_of_length_le hlen'
    · show jsSlice (displayText alreadyBraille text) es (some ee) = _
      rw [jsSlice_mid_eq _ _ _ h0 h0e]
      refine List.drop_eq_nil_of_le ?_
      calc (List.take (min ee.toNat (displayText alreadyBraille text).length)
              (displayText alreadyBraille text)).length
          ≤ (displayText alreadyBraille text).length := by simp
        _ ≤ es.toNat := hlen'
    · show jsSlice (displayText alreadyBraille text) ee none = _
      rw [jsSlice_none_eq_drop _ _ h0e]
      exact List.drop_eq_nil_of_le hlen''

/-- Witness for C9: the concatenation and the overflow clamp at a concrete
text with bounds exceeding its length. -/
theorem C9_renderer_segment_concat_witness :
    (rendererSegments true "ab".toList 7 9).1 ++
        (rendererSegments true "ab".toList 7 9).2.1 ++
        (rendererSegments true "ab".toList 7 9).2.2 =
      displayText true "ab".toList ∧
    rendererSegments true "ab".toList 7 9 =
      (displayText true "ab".toList, [], []) :=
  have h := C9_renderer_segment_concat "ab".toList true 7 9 (by decide)
    (by decide)
  ⟨h.1, h.2 (by decide)⟩

end BrailleBridge
